import Mathlib

/-!
Verification of `brassicate` (src/brassicate/conda/env.py), a small conda
wrapper.  The module is shallowly embedded: filesystem permission state is a
map from path to permission bits, side effects are recorded in an explicit
event trace, and the external package manager is modelled by a `World`
holding the environment paths that `conda info --json` reports.
-/

namespace Brassicate

/-- Python string containment `needle in hay`: `needle` occurs as a
contiguous substring of `hay`. -/
def strIn (needle hay : String) : Bool := decide (needle.data <:+: hay.data)

/-- Permission bits of a file: `S_IWRITE` versus `S_IREAD`. -/
inductive Perm where
  | writableBits
  | readonlyBits
deriving DecidableEq, Repr

/-- A Python exception relevant to this module. -/
inductive PyErr where
  | keyError (key : String)
  | typeError
deriving DecidableEq, Repr

/-- Observable side effects: printed lines, filesystem calls and subprocess
invocations, in program order. -/
inductive Event where
  | printMsg (msg : String)
  | touchFile (path : String)
  | mkdirParents (path : String)
  | chmodFile (path : String) (m : Perm)
  | runCmd (cmd : String)
deriving DecidableEq, Repr

/-- The path a filesystem event acts on; `none` for prints and subprocesses. -/
def Event.fsPath : Event → Option String
  | Event.touchFile p => some p
  | Event.mkdirParents p => some p
  | Event.chmodFile p _ => some p
  | Event.printMsg _ => none
  | Event.runCmd _ => none

/-- Whether the event mutates state (filesystem call or subprocess), as
opposed to a print. -/
def Event.isMutation : Event → Bool
  | Event.printMsg _ => false
  | _ => true

/-- The subprocess command strings of the traces. -/
def runCmds (t : List Event) : List String :=
  t.filterMap fun e => match e with
    | Event.runCmd c => some c
    | _ => none

/-- Permission state of the filesystem: path to permission bits, `none` when
the file does not exist. -/
structure FS where
  perm : String → Option Perm

/-- The empty filesystem. -/
def emptyFS : FS := ⟨fun _ => none⟩

/-- `Path.touch`: creates the file writable (default mode) if absent; if the
file exists only its mtime changes, permissions stay. -/
def FS.touch (fs : FS) (p : String) : FS :=
  match fs.perm p with
  | some _ => fs
  | none => ⟨fun q => if q = p then some Perm.writableBits else fs.perm q⟩

/-- `os.chmod`: sets the permission bits of `p`. -/
def FS.chmod (fs : FS) (p : String) (m : Perm) : FS :=
  ⟨fun q => if q = p then some m else fs.perm q⟩

/-- Canary file of the base environment: `conda_prefix / "conda-meta" /
"history"`.  The `conda_prefix` parameter is called `conda_root` here. -/
def baseCanary (conda_root : String) : String :=
  conda_root ++ "/conda-meta/history"

/-- Canary file of a named environment: `conda_prefix / "envs" / env_name /
"conda-meta" / "history"`. -/
def envCanary (conda_root env_name : String) : String :=
  conda_root ++ "/envs/" ++ env_name ++ "/conda-meta/history"

/-- Events of the entry half of `writable`: touch the base canary and chmod
it writable; for a non-base name also mkdir the parents, touch and chmod the
named canary. -/
def guardEntryEvents (env_name conda_root : String) : List Event :=
  [Event.touchFile (baseCanary conda_root),
   Event.chmodFile (baseCanary conda_root) Perm.writableBits] ++
    (if env_name = "base" then []
     else
       [Event.mkdirParents (conda_root ++ "/envs/" ++ env_name ++ "/conda-meta"),
        Event.touchFile (envCanary conda_root env_name),
        Event.chmodFile (envCanary conda_root env_name) Perm.writableBits])

/-- Filesystem effect of the entry half of `writable`. -/
def guardEntryFS (env_name conda_root : String) (fs : FS) : FS :=
  let fs1 := (fs.touch (baseCanary conda_root)).chmod (baseCanary conda_root)
      Perm.writableBits
  if env_name = "base" then fs1
  else
    (fs1.touch (envCanary conda_root env_name)).chmod
      (envCanary conda_root env_name) Perm.writableBits

/-- Events of the `finally` half of `writable`: when `enforce_readonly`,
chmod the base canary read-only, and the named canary too for a non-base
name; otherwise nothing. -/
def guardExitEvents (env_name : String) (enforce_readonly : Bool)
    (conda_root : String) : List Event :=
  if enforce_readonly then
    [Event.chmodFile (baseCanary conda_root) Perm.readonlyBits] ++
      (if env_name = "base" then []
       else [Event.chmodFile (envCanary conda_root env_name) Perm.readonlyBits])
  else []

/-- Filesystem effect of the `finally` half of `writable`. -/
def guardExitFS (env_name : String) (enforce_readonly : Bool)
    (conda_root : String) (fs : FS) : FS :=
  if enforce_readonly then
    let fs1 := fs.chmod (baseCanary conda_root) Perm.readonlyBits
    if env_name = "base" then fs1
    else fs1.chmod (envCanary conda_root env_name) Perm.readonlyBits
  else fs

/-- Result of running the guard around a body: the body outcome (which, on an
exception, propagates after the `finally` block ran), the body state, the
final filesystem and the trace. -/
structure GuardRun (σ : Type) where
  outcome : Except PyErr Unit
  state : σ
  fs : FS
  trace : List Event

/-- The `writable` context manager.  The body is an arbitrary computation
over its own state `σ` (here: the external world) returning an outcome —
`Except.ok` for normal return, `Except.error` for a raised exception — the
new state, and its emitted events.  Entry makes the canaries writable; the
`finally` block restores read-only when `enforce_readonly` is set, on every
exit path. -/
def writable {σ : Type} (env_name : String) (enforce_readonly : Bool)
    (conda_root : String) (body : σ → Except PyErr Unit × σ × List Event)
    (s : σ) (fs0 : FS) : GuardRun σ :=
  let b := body s
  { outcome := b.1
    state := b.2.1
    fs := guardExitFS env_name enforce_readonly conda_root
        (guardEntryFS env_name conda_root fs0)
    trace := guardEntryEvents env_name conda_root ++ b.2.2 ++
        guardExitEvents env_name enforce_readonly conda_root }

/-- The external package manager state: the environment paths that
`conda info --json` reports under the `envs` key. -/
structure World where
  envs : List String
deriving DecidableEq, Repr

/-- The command `find_env` invokes. -/
def infoCmd : String := "conda info --json"

/-- `find_env`: queries the environment list and returns the first path that
contains `env_name` as a substring, else `None`; also returns the emitted
subprocess event. -/
def find_env (w : World) (env_name : String) : Option String × List Event :=
  (w.envs.find? (fun env_path => strIn env_name env_path),
   [Event.runCmd infoCmd])

/-- An `environment.yml` manifest: an optional `name` key and an optional
dependency list (`update_from_yml` never reads the latter). -/
structure Manifest where
  name : Option String
  dependencies : Option (List String)
deriving DecidableEq, Repr

/-- The literal update command of `update_from_yml`. -/
def updateCmd : String := "conda env update --file environment.yml --prune"

/-- The literal create command of `update_from_yml`. -/
def createCmd : String := "conda env create --file environment.yml"

/-- An apostrophe, as a string. -/
def apos : String := String.singleton (Char.ofNat 39)

/-- The message printed after parsing the manifest.  Paths are modelled as
already resolved, so `yml_file.resolve()` is `yml_file`. -/
def foundMsg (env_name yml_file : String) : String :=
  "Found environment file for " ++ env_name ++ " at " ++ yml_file

/-- The message printed in the create branch. -/
def noEnvMsg (env_name : String) : String :=
  "Environment " ++ env_name ++ " doesn" ++ apos ++ "t exist, so create it..."

/-- Model of the external tool: `conda env create --file environment.yml`
registers a new environment under `envs/<name>` of the root, where `name` is
the name in the `environment.yml` of the current working directory; the
environment list query then reports it (spec: the locator finds the
environment afterwards). -/
def World.create (w : World) (conda_root cwd_env_name : String) : World :=
  ⟨w.envs ++ [conda_root ++ "/envs/" ++ cwd_env_name]⟩

/-- The body that `update_from_yml` runs inside `writable`: update when the
locator found a path, else print and create.  `cwd_env_name` is the name in
the `environment.yml` of the working directory, the file the literal
commands act on. -/
def syncBody (env_path : Option String) (env_name conda_root cwd_env_name : String)
    (w : World) : Except PyErr Unit × World × List Event :=
  match env_path with
  | some _ => (Except.ok (), w, [Event.runCmd updateCmd])
  | none =>
      (Except.ok (), w.create conda_root cwd_env_name,
       [Event.printMsg (noEnvMsg env_name), Event.runCmd createCmd])

/-- Result of a sync run. -/
structure SyncResult where
  outcome : Except PyErr Unit
  world : World
  fs : FS
  trace : List Event

/-- `update_from_yml`: reads the manifest (a missing `name` key raises
`KeyError`), prints the found message, queries the locator, then inside
`writable` updates the environment when it exists, else creates it. -/
def update_from_yml (yml_file : String) (manifest : Manifest)
    (enforce_readonly : Bool) (conda_root cwd_env_name : String)
    (w : World) (fs0 : FS) : SyncResult :=
  match manifest.name with
  | none =>
      { outcome := Except.error (PyErr.keyError "name")
        world := w
        fs := fs0
        trace := [] }
  | some env_name =>
      let found := find_env w env_name
      let run := writable env_name enforce_readonly conda_root
          (syncBody found.1 env_name conda_root cwd_env_name) w fs0
      { outcome := run.outcome
        world := run.state
        fs := run.fs
        trace := Event.printMsg (foundMsg env_name yml_file) :: (found.2 ++ run.trace) }

/-- A Python value as it flows through `set_env_vars`: `Path.mkdir` returns
`None`, which the source then uses as a path. -/
inductive PyVal where
  | nonePy
  | path (p : String)
deriving DecidableEq, Repr

/-- The path `/` operator; applied to `None` it raises `TypeError`, as in
Python. -/
def pyJoin : PyVal → String → Except PyErr String
  | PyVal.path p, s => Except.ok (p ++ "/" ++ s)
  | PyVal.nonePy, _ => Except.error PyErr.typeError

/-- Effects of a `set_env_vars` run: directories created, files written with
their content, and the exception it ended with, if any. -/
structure ScriptRun where
  dirs : List String
  files : List (String × String)
  err : Option PyErr
deriving DecidableEq, Repr

/-- `set_env_vars`.  The buffers are built first (in Python, `list += str`
extends the list with the characters of the string, and `writelines`
concatenates, so the written content would be the plain concatenation).
`activate_dir` is the return value of `Path.mkdir`, which is `None`; the
directory itself is created as a side effect.  The subsequent
`activate_dir / "env_vars.sh"` is `None / str`. -/
def set_env_vars (env_vars : List (String × String)) (env_path : String) :
    ScriptRun :=
  let activate_sh := "#!/bin/sh\n" ++
    String.join (env_vars.map fun kv => "export " ++ kv.1 ++ "=" ++ kv.2 ++ "\n")
  let activate_bat := "" ++
    String.join (env_vars.map fun kv => "set " ++ kv.1 ++ "=" ++ kv.2 ++ "\n")
  let deactivate_sh := "#!/bin/sh\n" ++
    String.join (env_vars.map fun kv => "unset " ++ kv.1 ++ "\n")
  let deactivate_bat := "" ++
    String.join (env_vars.map fun kv => "set " ++ kv.1 ++ "=\n")
  let activateDirPath := env_path ++ "/etc/conda/activate.d"
  let activate_dir : PyVal := PyVal.nonePy
  match pyJoin activate_dir "env_vars.sh" with
  | Except.error e => { dirs := [activateDirPath], files := [], err := some e }
  | Except.ok f1 =>
    match pyJoin activate_dir "env_vars.bat" with
    | Except.error e =>
        { dirs := [activateDirPath], files := [(f1, activate_sh)], err := some e }
    | Except.ok f2 =>
      let deactivateDirPath := env_path ++ "/etc/conda/deactivate.d"
      let deactivate_dir : PyVal := PyVal.nonePy
      match pyJoin deactivate_dir "env_vars.sh" with
      | Except.error e =>
          { dirs := [activateDirPath, deactivateDirPath]
            files := [(f1, activate_sh), (f2, activate_bat)]
            err := some e }
      | Except.ok f3 =>
        match pyJoin deactivate_dir "env_vars.bat" with
        | Except.error e =>
            { dirs := [activateDirPath, deactivateDirPath]
              files := [(f1, activate_sh), (f2, activate_bat), (f3, deactivate_sh)]
              err := some e }
        | Except.ok f4 =>
            { dirs := [activateDirPath, deactivateDirPath]
              files := [(f1, activate_sh), (f2, activate_bat),
                        (f3, deactivate_sh), (f4, deactivate_bat)]
              err := none }

theorem baseCanary_ne_envCanary (r n : String) : baseCanary r ≠ envCanary r n := by
  intro h
  have hl := congrArg String.length h
  have h1 : ("/conda-meta/history" : String).length = 19 := rfl
  have h2 : ("/envs/" : String).length = 6 := rfl
  simp only [baseCanary, envCanary, String.length_append] at hl
  omega

theorem FS.perm_chmod_self (fs : FS) (p : String) (m : Perm) :
    (fs.chmod p m).perm p = some m := by
  simp [FS.chmod]

theorem FS.perm_chmod_ne (fs : FS) (p q : String) (m : Perm) (h : q ≠ p) :
    (fs.chmod p m).perm q = fs.perm q := by
  simp [FS.chmod, h]

theorem FS.perm_touch_ne (fs : FS) (p q : String) (h : q ≠ p) :
    (fs.touch p).perm q = fs.perm q := by
  unfold FS.touch
  cases hfp : fs.perm p <;> simp [hfp, h]

theorem guardEntryFS_base (n r : String) (fs : FS) :
    (guardEntryFS n r fs).perm (baseCanary r) = some Perm.writableBits := by
  unfold guardEntryFS
  by_cases h : n = "base"
  · simp [h, FS.perm_chmod_self]
  · have hne := baseCanary_ne_envCanary r n
    simp [h, FS.perm_chmod_ne, FS.perm_touch_ne, hne, FS.perm_chmod_self]

theorem guardEntryFS_env (n r : String) (fs : FS) (h : n ≠ "base") :
    (guardEntryFS n r fs).perm (envCanary r n) = some Perm.writableBits := by
  simp [guardEntryFS, h, FS.perm_chmod_self]

theorem guardRun_perm_base (n r : String) (e : Bool) (fs : FS) :
    (guardExitFS n e r (guardEntryFS n r fs)).perm (baseCanary r)
      = some (if e then Perm.readonlyBits else Perm.writableBits) := by
  cases e
  · simp [guardExitFS, guardEntryFS_base]
  · unfold guardExitFS
    by_cases h : n = "base"
    · simp [h, FS.perm_chmod_self]
    · have hne := baseCanary_ne_envCanary r n
      simp [h, FS.perm_chmod_ne, hne, FS.perm_chmod_self]

theorem guardRun_perm_env (n r : String) (e : Bool) (fs : FS) (h : n ≠ "base") :
    (guardExitFS n e r (guardEntryFS n r fs)).perm (envCanary r n)
      = some (if e then Perm.readonlyBits else Perm.writableBits) := by
  cases e
  · simp [guardExitFS, guardEntryFS_env n r fs h]
  · simp [guardExitFS, h, FS.perm_chmod_self]

/-- Claim C1: for every environment name, every value of `enforce_readonly`
and every body, whether the body returns normally or raises, after the guard
exits the canary permission bits are read-only when `enforce_readonly` is
true and writable when it is false — for the base canary always, and for the
named canary too when the name is not `"base"`. -/
theorem writable_restores_canary {σ : Type} (env_name : String)
    (enforce_readonly : Bool) (conda_root : String)
    (body : σ → Except PyErr Unit × σ × List Event) (s : σ) (fs0 : FS) :
    (writable env_name enforce_readonly conda_root body s fs0).fs.perm
        (baseCanary conda_root)
      = some (if enforce_readonly then Perm.readonlyBits else Perm.writableBits) ∧
    (env_name ≠ "base" →
      (writable env_name enforce_readonly conda_root body s fs0).fs.perm
          (envCanary conda_root env_name)
        = some (if enforce_readonly then Perm.readonlyBits else Perm.writableBits)) := by
  refine ⟨?_, fun h => ?_⟩
  · simpa [writable] using
      guardRun_perm_base env_name conda_root enforce_readonly fs0
  · simpa [writable] using
      guardRun_perm_env env_name conda_root enforce_readonly fs0 h

theorem writable_restores_canary_witness :
    ("proj" : String) ≠ "base" ∧
    (writable "proj" true "/opt/conda"
        (fun (_ : Unit) => (Except.error PyErr.typeError, (), [])) ()
        emptyFS).fs.perm (envCanary "/opt/conda" "proj")
      = some (if true then Perm.readonlyBits else Perm.writableBits) :=
  ⟨by decide,
   (writable_restores_canary "proj" true "/opt/conda"
      (fun (_ : Unit) => (Except.error PyErr.typeError, (), [])) ()
      emptyFS).2 (by decide)⟩

/-- Claim C7: when the guard runs for the name `"base"` and the body performs
no filesystem calls of its own, every filesystem event of the run targets
the base canary path: no event touches any non-base canary path on entry or
on exit. -/
theorem writable_base_frame {σ : Type} (enforce_readonly : Bool)
    (conda_root : String) (body : σ → Except PyErr Unit × σ × List Event)
    (s : σ) (fs0 : FS)
    (hbody : ∀ e ∈ (body s).2.2, Event.fsPath e = none) (e : Event)
    (he : e ∈ (writable "base" enforce_readonly conda_root body s fs0).trace)
    (p : String) (hp : e.fsPath = some p) : p = baseCanary conda_root := by
  have htrace : (writable "base" enforce_readonly conda_root body s fs0).trace
      = [Event.touchFile (baseCanary conda_root),
         Event.chmodFile (baseCanary conda_root) Perm.writableBits] ++
        ((body s).2.2 ++
          (if enforce_readonly then
            [Event.chmodFile (baseCanary conda_root) Perm.readonlyBits]
           else [])) := by
    simp [writable, guardEntryEvents, guardExitEvents]
  rw [htrace] at he
  simp only [List.mem_append, List.mem_cons, List.not_mem_nil, or_false] at he
  rcases he with (rfl | rfl) | hbe | hex
  · simpa [Event.fsPath] using hp.symm
  · simpa [Event.fsPath] using hp.symm
  · rw [hbody e hbe] at hp
    cases hp
  · cases enforce_readonly
    · simp at hex
    · simp only [if_pos, List.mem_cons, List.not_mem_nil, or_false] at hex
      subst hex
      simpa [Event.fsPath] using hp.symm

theorem writable_base_frame_witness : baseCanary "/opt/conda" = baseCanary "/opt/conda" :=
  writable_base_frame true "/opt/conda"
    (fun (_ : Unit) => (Except.ok (), (), [])) () emptyFS (by simp)
    (Event.touchFile (baseCanary "/opt/conda"))
    (by simp [writable, guardEntryEvents, guardExitEvents])
    (baseCanary "/opt/conda") rfl

/-- Claim C3: `find_env` returns a path exactly when some entry of the
environment list contains the name as a substring; the returned path is the
first such entry in list order, and otherwise the result is `None`. -/
theorem find_env_first_substring_match (w : World) (n : String) :
    ((find_env w n).1.isSome ↔ ∃ q ∈ w.envs, strIn n q = true) ∧
    ((find_env w n).1 = none ↔ ∀ q ∈ w.envs, strIn n q = false) ∧
    ∀ p, (find_env w n).1 = some p →
      strIn n p = true ∧
      ∃ l1 l2, w.envs = l1 ++ p :: l2 ∧ ∀ q ∈ l1, strIn n q = false := by
  refine ⟨?_, ?_, ?_⟩
  · simp [find_env, List.find?_isSome]
  · simp [find_env, List.find?_eq_none]
  · intro p hp
    obtain ⟨hpred, l1, l2, heq, hprev⟩ := List.find?_eq_some.1 hp
    exact ⟨hpred, l1, l2, heq, fun q hq => by simpa using hprev q hq⟩

theorem find_env_first_substring_match_witness :
    strIn "proj" "/c/envs/proj" = true ∧
    ∃ l1 l2,
      (World.mk ["/c/envs/other", "/c/envs/proj"]).envs
        = l1 ++ "/c/envs/proj" :: l2 ∧
      ∀ q ∈ l1, strIn "proj" q = false :=
  (find_env_first_substring_match ⟨["/c/envs/other", "/c/envs/proj"]⟩
    "proj").2.2 "/c/envs/proj" (by decide)

/-- Claim C10: with the empty string as name, `find_env` returns the first
entry of any non-empty environment list (the empty string is a substring
of every path) and `None` exactly on the empty list. -/
theorem find_env_empty_name (p : String) (ps : List String) :
    (find_env ⟨[]⟩ "").1 = none ∧ (find_env ⟨p :: ps⟩ "").1 = some p := by
  refine ⟨rfl, ?_⟩
  have h : strIn "" p = true := by
    simp only [strIn, decide_eq_true_eq]
    exact List.nil_infix
  simp [find_env, List.find?_cons, h]

theorem runCmds_guardEntry (n r : String) : runCmds (guardEntryEvents n r) = [] := by
  by_cases h : n = "base" <;> simp [runCmds, guardEntryEvents, h]

theorem runCmds_guardExit (n : String) (e : Bool) (r : String) :
    runCmds (guardExitEvents n e r) = [] := by
  cases e <;> by_cases h : n = "base" <;> simp [runCmds, guardExitEvents, h]

theorem sync_found_run (yml_file : String) (m : Manifest) (n path0 : String)
    (enforce_readonly : Bool) (conda_root cwd_env_name : String) (w : World)
    (fs0 : FS) (hn : m.name = some n)
    (hf : (find_env w n).1 = some path0) :
    update_from_yml yml_file m enforce_readonly conda_root cwd_env_name w fs0 =
      { outcome := Except.ok ()
        world := w
        fs := guardExitFS n enforce_readonly conda_root
            (guardEntryFS n conda_root fs0)
        trace := Event.printMsg (foundMsg n yml_file) :: Event.runCmd infoCmd ::
          (guardEntryEvents n conda_root ++ [Event.runCmd updateCmd] ++
           guardExitEvents n enforce_readonly conda_root) } := by
  have hf2 : w.envs.find? (fun q => strIn n q) = some path0 := hf
  simp [update_from_yml, hn, writable, syncBody, find_env, hf2]

theorem sync_notfound_run (yml_file : String) (m : Manifest) (n : String)
    (enforce_readonly : Bool) (conda_root cwd_env_name : String) (w : World)
    (fs0 : FS) (hn : m.name = some n) (hf : (find_env w n).1 = none) :
    update_from_yml yml_file m enforce_readonly conda_root cwd_env_name w fs0 =
      { outcome := Except.ok ()
        world := w.create conda_root cwd_env_name
        fs := guardExitFS n enforce_readonly conda_root
            (guardEntryFS n conda_root fs0)
        trace := Event.printMsg (foundMsg n yml_file) :: Event.runCmd infoCmd ::
          (guardEntryEvents n conda_root ++
           [Event.printMsg (noEnvMsg n), Event.runCmd createCmd] ++
           guardExitEvents n enforce_readonly conda_root) } := by
  have hf2 : w.envs.find? (fun q => strIn n q) = none := hf
  simp [update_from_yml, hn, writable, syncBody, find_env, hf2]

/-- Claim C4: when the locator reports the environment as existing, the sync
invokes the update command exactly once and never the create command; when
it reports not-found, it invokes the create command exactly once and never
the update command — and in both cases the invocation sits between the
guard-entry and the guard-exit events. -/
theorem update_from_yml_branch_selection (yml_file : String) (m : Manifest)
    (n : String) (enforce_readonly : Bool) (conda_root cwd_env_name : String)
    (w : World) (fs0 : FS) (hn : m.name = some n) :
    (∀ path0, (find_env w n).1 = some path0 →
      (update_from_yml yml_file m enforce_readonly conda_root cwd_env_name w
          fs0).trace
        = Event.printMsg (foundMsg n yml_file) :: Event.runCmd infoCmd ::
            (guardEntryEvents n conda_root ++ [Event.runCmd updateCmd] ++
             guardExitEvents n enforce_readonly conda_root) ∧
      runCmds (update_from_yml yml_file m enforce_readonly conda_root
          cwd_env_name w fs0).trace = [infoCmd, updateCmd]) ∧
    ((find_env w n).1 = none →
      (update_from_yml yml_file m enforce_readonly conda_root cwd_env_name w
          fs0).trace
        = Event.printMsg (foundMsg n yml_file) :: Event.runCmd infoCmd ::
            (guardEntryEvents n conda_root ++
             [Event.printMsg (noEnvMsg n), Event.runCmd createCmd] ++
             guardExitEvents n enforce_readonly conda_root) ∧
      runCmds (update_from_yml yml_file m enforce_readonly conda_root
          cwd_env_name w fs0).trace = [infoCmd, createCmd]) := by
  constructor
  · intro path0 hf
    rw [sync_found_run yml_file m n path0 enforce_readonly conda_root
      cwd_env_name w fs0 hn hf]
    refine ⟨rfl, ?_⟩
    have h1 := runCmds_guardEntry n conda_root
    have h2 := runCmds_guardExit n enforce_readonly conda_root
    simp only [runCmds] at h1 h2
    simp [runCmds, h1, h2]
  · intro hf
    rw [sync_notfound_run yml_file m n enforce_readonly conda_root
      cwd_env_name w fs0 hn hf]
    refine ⟨rfl, ?_⟩
    have h1 := runCmds_guardEntry n conda_root
    have h2 := runCmds_guardExit n enforce_readonly conda_root
    simp only [runCmds] at h1 h2
    simp [runCmds, h1, h2]

theorem update_from_yml_branch_selection_witness :
    (update_from_yml "environment.yml" ⟨some "proj", some ["numpy"]⟩ true
        "/c" "proj" ⟨["/c/envs/proj"]⟩ emptyFS).trace
      = Event.printMsg (foundMsg "proj" "environment.yml") ::
          Event.runCmd infoCmd ::
          (guardEntryEvents "proj" "/c" ++ [Event.runCmd updateCmd] ++
           guardExitEvents "proj" true "/c") ∧
    runCmds (update_from_yml "environment.yml" ⟨some "proj", some ["numpy"]⟩
        true "/c" "proj" ⟨["/c/envs/proj"]⟩ emptyFS).trace
      = [infoCmd, updateCmd] :=
  (update_from_yml_branch_selection "environment.yml"
      ⟨some "proj", some ["numpy"]⟩ "proj" true "/c" "proj"
      ⟨["/c/envs/proj"]⟩ emptyFS rfl).1 "/c/envs/proj" (by decide)

/-- Claim C9: whatever `yml_file` the sync was given, the subprocess command
lines are the fixed strings naming the literal file `environment.yml` of the
working directory — the manifest parsed for the name and the file the
external tool acts on can be different files. -/
theorem update_from_yml_commands_name_literal_file (yml_file : String)
    (m : Manifest) (n : String) (enforce_readonly : Bool)
    (conda_root cwd_env_name : String) (w : World) (fs0 : FS)
    (hn : m.name = some n) :
    runCmds (update_from_yml yml_file m enforce_readonly conda_root
        cwd_env_name w fs0).trace
      = [infoCmd, if (find_env w n).1.isSome then updateCmd else createCmd] ∧
    updateCmd = "conda env update --file environment.yml --prune" ∧
    createCmd = "conda env create --file environment.yml" := by
  refine ⟨?_, rfl, rfl⟩
  cases hf : (find_env w n).1 with
  | none =>
      rw [sync_notfound_run yml_file m n enforce_readonly conda_root
        cwd_env_name w fs0 hn hf]
      have h1 := runCmds_guardEntry n conda_root
      have h2 := runCmds_guardExit n enforce_readonly conda_root
      simp only [runCmds] at h1 h2
      simp [runCmds, h1, h2]
  | some path0 =>
      rw [sync_found_run yml_file m n path0 enforce_readonly conda_root
        cwd_env_name w fs0 hn hf]
      have h1 := runCmds_guardEntry n conda_root
      have h2 := runCmds_guardExit n enforce_readonly conda_root
      simp only [runCmds] at h1 h2
      simp [runCmds, h1, h2]

theorem update_from_yml_commands_name_literal_file_witness :
    runCmds (update_from_yml "/somewhere/else/custom.yml"
        ⟨some "proj", some ["numpy"]⟩ true "/c" "proj" ⟨[]⟩ emptyFS).trace
      = [infoCmd,
         if (find_env ⟨[]⟩ "proj").1.isSome then updateCmd else createCmd] ∧
    updateCmd = "conda env update --file environment.yml --prune" ∧
    createCmd = "conda env create --file environment.yml" :=
  update_from_yml_commands_name_literal_file "/somewhere/else/custom.yml"
    ⟨some "proj", some ["numpy"]⟩ "proj" true "/c" "proj" ⟨[]⟩ emptyFS rfl

/-- Claim C8: the message naming the resolved environment and manifest path
is the head of the trace, so it is printed strictly before every mutating
event (canary permission change or subprocess invocation). -/
theorem update_from_yml_prints_before_mutation (yml_file : String)
    (m : Manifest) (n : String) (enforce_readonly : Bool)
    (conda_root cwd_env_name : String) (w : World) (fs0 : FS)
    (hn : m.name = some n) :
    (update_from_yml yml_file m enforce_readonly conda_root cwd_env_name w
        fs0).trace.head? = some (Event.printMsg (foundMsg n yml_file)) ∧
    ∀ i e,
      (update_from_yml yml_file m enforce_readonly conda_root cwd_env_name w
          fs0).trace.get? i = some e →
      Event.isMutation e = true → 0 < i := by
  cases hf : (find_env w n).1 with
  | none =>
      rw [sync_notfound_run yml_file m n enforce_readonly conda_root
        cwd_env_name w fs0 hn hf]
      refine ⟨rfl, ?_⟩
      intro i e hi hm
      cases i with
      | zero =>
          simp at hi
          subst hi
          simp [Event.isMutation] at hm
      | succ k => exact Nat.succ_pos k
  | some path0 =>
      rw [sync_found_run yml_file m n path0 enforce_readonly conda_root
        cwd_env_name w fs0 hn hf]
      refine ⟨rfl, ?_⟩
      intro i e hi hm
      cases i with
      | zero =>
          simp at hi
          subst hi
          simp [Event.isMutation] at hm
      | succ k => exact Nat.succ_pos k

theorem update_from_yml_prints_before_mutation_witness :
    (update_from_yml "environment.yml" ⟨some "proj", some ["numpy"]⟩ true
        "/c" "proj" ⟨[]⟩ emptyFS).trace.head?
      = some (Event.printMsg (foundMsg "proj" "environment.yml")) ∧
    ∀ i e,
      (update_from_yml "environment.yml" ⟨some "proj", some ["numpy"]⟩ true
          "/c" "proj" ⟨[]⟩ emptyFS).trace.get? i = some e →
      Event.isMutation e = true → 0 < i :=
  update_from_yml_prints_before_mutation "environment.yml"
    ⟨some "proj", some ["numpy"]⟩ "proj" true "/c" "proj" ⟨[]⟩ emptyFS rfl

/-- Claim C2 (the code violates it): a manifest with an empty dependency
list is not rejected — `update_from_yml` never reads the dependency list,
finishes without error and invokes a subprocess (here: the create command),
against the stated `ConfigError`-before-any-mutation contract. -/
theorem update_from_yml_accepts_empty_dependencies :
    (update_from_yml "environment.yml" ⟨some "proj", some []⟩ true
        "/opt/conda" "proj" ⟨[]⟩ emptyFS).outcome = Except.ok () ∧
    runCmds (update_from_yml "environment.yml" ⟨some "proj", some []⟩ true
        "/opt/conda" "proj" ⟨[]⟩ emptyFS).trace = [infoCmd, createCmd] := by
  constructor <;> rfl

/-- Claim C5 (the code violates it): `set_env_vars` assigns the return value
of `Path.mkdir` — which is `None` — to `activate_dir`, so the first
`activate_dir / "env_vars.sh"` raises `TypeError`: no script file is ever
written, only the `activate.d` directory is created. -/
theorem set_env_vars_raises_type_error :
    set_env_vars [("FOO", "bar")] "/opt/conda/envs/proj" =
      { dirs := ["/opt/conda/envs/proj/etc/conda/activate.d"]
        files := []
        err := some PyErr.typeError } := by
  rfl

theorem strIn_append_self (a b : String) : strIn b (a ++ b) = true := by
  simp only [strIn, decide_eq_true_eq, String.data_append]
  exact List.IsSuffix.isInfix (List.suffix_append a.data b.data)

theorem find_env_after_create (w : World) (conda_root n : String)
    (hf : (find_env w n).1 = none) :
    (find_env (w.create conda_root n) n).1
      = some (conda_root ++ "/envs/" ++ n) := by
  have hf2 : w.envs.find? (fun q => strIn n q) = none := hf
  have hin : strIn n (conda_root ++ "/envs/" ++ n) = true :=
    strIn_append_self (conda_root ++ "/envs/") n
  simp [find_env, World.create, List.find?_append, hf2, hin]

/-- Claim C6: running the sync twice with the manifest unchanged (the synced
file being the `environment.yml` of the working directory) leaves the same
final canary permission state — read-only under `enforce_readonly` — and the
second run does not error: the locator then finds the environment, so the
second run takes the update branch, never the create branch. -/
theorem update_from_yml_idempotent (yml_file : String) (m : Manifest)
    (n conda_root : String) (w : World) (fs0 : FS) (hn : m.name = some n) :
    (update_from_yml yml_file m true conda_root n
        (update_from_yml yml_file m true conda_root n w fs0).world
        (update_from_yml yml_file m true conda_root n w fs0).fs).outcome
      = Except.ok () ∧
    runCmds (update_from_yml yml_file m true conda_root n
        (update_from_yml yml_file m true conda_root n w fs0).world
        (update_from_yml yml_file m true conda_root n w fs0).fs).trace
      = [infoCmd, updateCmd] ∧
    (update_from_yml yml_file m true conda_root n
        (update_from_yml yml_file m true conda_root n w fs0).world
        (update_from_yml yml_file m true conda_root n w fs0).fs).fs.perm
        (baseCanary conda_root) = some Perm.readonlyBits ∧
    (n ≠ "base" →
      (update_from_yml yml_file m true conda_root n
          (update_from_yml yml_file m true conda_root n w fs0).world
          (update_from_yml yml_file m true conda_root n w fs0).fs).fs.perm
          (envCanary conda_root n) = some Perm.readonlyBits) ∧
    (update_from_yml yml_file m true conda_root n w fs0).fs.perm
        (baseCanary conda_root)
      = (update_from_yml yml_file m true conda_root n
          (update_from_yml yml_file m true conda_root n w fs0).world
          (update_from_yml yml_file m true conda_root n w fs0).fs).fs.perm
          (baseCanary conda_root) := by
  have hbase : ∀ fs : FS,
      (guardExitFS n true conda_root (guardEntryFS n conda_root fs)).perm
        (baseCanary conda_root) = some Perm.readonlyBits := fun fs => by
    simpa using guardRun_perm_base n conda_root true fs
  have henv : n ≠ "base" → ∀ fs : FS,
      (guardExitFS n true conda_root (guardEntryFS n conda_root fs)).perm
        (envCanary conda_root n) = some Perm.readonlyBits := fun h fs => by
    simpa using guardRun_perm_env n conda_root true fs h
  have hrc := runCmds_guardEntry n conda_root
  have hrx := runCmds_guardExit n true conda_root
  simp only [runCmds] at hrc hrx
  cases hf : (find_env w n).1 with
  | some path0 =>
      have h1 := sync_found_run yml_file m n path0 true conda_root n w fs0 hn hf
      have hw1 : (update_from_yml yml_file m true conda_root n w fs0).world
          = w := by rw [h1]
      have hfs1 : (update_from_yml yml_file m true conda_root n w fs0).fs
          = guardExitFS n true conda_root (guardEntryFS n conda_root fs0) := by
        rw [h1]
      rw [hw1, hfs1]
      have h2 := sync_found_run yml_file m n path0 true conda_root n w
        (guardExitFS n true conda_root (guardEntryFS n conda_root fs0)) hn hf
      rw [h2]
      refine ⟨rfl, ?_, hbase _, fun h => henv h _, ?_⟩
      · simp [runCmds, hrc, hrx]
      · rw [hbase, hbase]
  | none =>
      have h1 := sync_notfound_run yml_file m n true conda_root n w fs0 hn hf
      have hw1 : (update_from_yml yml_file m true conda_root n w fs0).world
          = w.create conda_root n := by rw [h1]
      have hfs1 : (update_from_yml yml_file m true conda_root n w fs0).fs
          = guardExitFS n true conda_root (guardEntryFS n conda_root fs0) := by
        rw [h1]
      rw [hw1, hfs1]
      have hf2 := find_env_after_create w conda_root n hf
      have h2 := sync_found_run yml_file m n (conda_root ++ "/envs/" ++ n)
        true conda_root n (w.create conda_root n)
        (guardExitFS n true conda_root (guardEntryFS n conda_root fs0)) hn hf2
      rw [h2]
      refine ⟨rfl, ?_, hbase _, fun h => henv h _, ?_⟩
      · simp [runCmds, hrc, hrx]
      · rw [hbase, hbase]

theorem update_from_yml_idempotent_witness :
    (update_from_yml "environment.yml" ⟨some "proj", some ["numpy"]⟩ true
        "/c" "proj"
        (update_from_yml "environment.yml" ⟨some "proj", some ["numpy"]⟩ true
            "/c" "proj" ⟨[]⟩ emptyFS).world
        (update_from_yml "environment.yml" ⟨some "proj", some ["numpy"]⟩ true
            "/c" "proj" ⟨[]⟩ emptyFS).fs).outcome = Except.ok () ∧
    runCmds (update_from_yml "environment.yml" ⟨some "proj", some ["numpy"]⟩
        true "/c" "proj"
        (update_from_yml "environment.yml" ⟨some "proj", some ["numpy"]⟩ true
            "/c" "proj" ⟨[]⟩ emptyFS).world
        (update_from_yml "environment.yml" ⟨some "proj", some ["numpy"]⟩ true
            "/c" "proj" ⟨[]⟩ emptyFS).fs).trace = [infoCmd, updateCmd] :=
  ⟨(update_from_yml_idempotent "environment.yml" ⟨some "proj", some ["numpy"]⟩
      "proj" "/c" ⟨[]⟩ emptyFS rfl).1,
   (update_from_yml_idempotent "environment.yml" ⟨some "proj", some ["numpy"]⟩
      "proj" "/c" ⟨[]⟩ emptyFS rfl).2.1⟩

end Brassicate
